import Mathlib

/-
Verification development for the Teams live transcription and translation bot
(`team_bot.py` and `test_team_bot_locally.py`).  Python strings are modelled as
`List Char` (wrapped into `String` at the interfaces), dictionaries keyed by
strings as association lists with Python dict semantics (in-place overwrite,
append for fresh keys), and the asynchronous dispatcher loop as a fuel-indexed
step function over an explicit state record.
-/

namespace TeamsBot

/-! ### Character-level models of the Python `str` operations used by the bot -/

/-- Whitespace characters recognised by Python `str.split` / `str.strip`
(space, tab, newline, carriage return, vertical tab, form feed). -/
def isSpaceChar (c : Char) : Bool :=
  c == ' ' || c == '\t' || c == '\n' || c == '\r' ||
  c == Char.ofNat 11 || c == Char.ofNat 12

/-- Python `needle in haystack` on strings: `occursB p s` is true when the
character sequence `p` appears contiguously inside `s`. -/
def occursB (p : List Char) : List Char → Bool
  | [] => p.isEmpty
  | c :: t => p.isPrefixOf (c :: t) || occursB p t

/-- Propositional form of substring occurrence: `p` appears contiguously in
`s`. -/
def Occurs (p s : List Char) : Prop :=
  ∃ u v, s = u ++ p ++ v

/-- Python `str.strip()`: drop leading and trailing whitespace. -/
def stripWs (s : List Char) : List Char :=
  ((s.dropWhile isSpaceChar).reverse.dropWhile isSpaceChar).reverse

/-- Fuel-indexed worker for Python `str.split()` (split on whitespace runs,
dropping empty fragments).  The fuel is always instantiated with the length of
the list, which suffices because every step consumes at least one character. -/
def splitWsF : Nat → List Char → List (List Char)
  | _, [] => []
  | 0, _ => []
  | fuel + 1, c :: t =>
    if isSpaceChar c then splitWsF fuel t
    else (c :: t.takeWhile (fun d => !isSpaceChar d)) ::
      splitWsF fuel (t.dropWhile (fun d => !isSpaceChar d))

/-- Python `str.split()` on whitespace. -/
def splitWs (s : List Char) : List (List Char) :=
  splitWsF s.length s

/-- Fuel-indexed worker for Python `str.replace(p, r)`: replace every
(leftmost, non-overlapping) occurrence of `p` by `r`.  The fuel is always
instantiated with the length of the subject, which suffices because every step
consumes at least one character.  The `p ≠ []` guard never fires for the bot:
every pattern it replaces is non-empty. -/
def replaceAllF (p r : List Char) : Nat → List Char → List Char
  | _, [] => []
  | 0, l => l
  | fuel + 1, c :: s =>
    if p.isPrefixOf (c :: s) ∧ p ≠ [] then
      r ++ replaceAllF p r fuel (s.drop (p.length - 1))
    else
      c :: replaceAllF p r fuel s

/-- Python `str.replace` (all occurrences, left to right). -/
def replaceAll (p r s : List Char) : List Char :=
  replaceAllF p r s.length s

/-- Python `text[0].upper() + text[1:]` guarded by `if text`. -/
def capFirst : List Char → List Char
  | [] => []
  | c :: t => c.toUpper :: t

/-- Python `sep.join(parts)`. -/
def joinSep (sep : List Char) : List (List Char) → List Char
  | [] => []
  | [x] => x
  | x :: y :: t => x ++ sep ++ joinSep sep (y :: t)

/-- Python `str.lower()` (exact on the ASCII range used by the bot's fixed
tables). -/
def toLowerL (s : List Char) : List Char :=
  s.map Char.toLower

/-- Worker for Python `str.title()`: uppercase a letter that follows a
non-letter, lowercase the other letters. -/
def titleCaseGo : Bool → List Char → List Char
  | _, [] => []
  | prevAlpha, c :: t =>
    if c.isAlpha then
      (if prevAlpha then c.toLower else c.toUpper) :: titleCaseGo true t
    else
      c :: titleCaseGo false t

/-- Python `str.title()` (exact on the ASCII constants it is applied to). -/
def titleCase (s : List Char) : List Char :=
  titleCaseGo false s

/-! ### The fallback translation table (`_enhanced_translate`, team_bot.py
lines 437-487), in Python dict insertion order -/

/-- The fixed bilingual phrase table of `_enhanced_translate`. -/
def translationsTable : List (String × String) :=
  [ ("මගේ නම්", "My name is"),
    ("මම", "I"),
    ("ඔබ", "you"),
    ("අපි", "we"),
    ("සමාගම", "company"),
    ("සමාගමේ", "company\x27s"),
    ("ව්‍යාපාර", "business"),
    ("සේවාව", "service"),
    ("වැඩ", "work"),
    ("කාර්යාලය", "office"),
    ("ගනුදෙනු", "transactions"),
    ("විකුණනවා", "selling"),
    ("විකුණන්නේ", "sell"),
    ("ලංකාව", "Sri Lanka"),
    ("ලංකාවේ", "in Sri Lanka"),
    ("සිංහල", "Sinhala"),
    ("දෙමළ", "Tamil"),
    ("භාෂා", "language"),
    ("ඉගෙන ගන්නවා", "learning"),
    ("ඉගෙන ගන්නේ", "learning"),
    ("පරිවර්තන", "translation"),
    ("පරිවර්තකයෙක්", "translator"),
    ("ලියන්න", "write"),
    ("ලියන්න ඕනෙ", "need to write"),
    ("මොනවද", "what"),
    ("කොහොමද", "how"),
    ("ඇති කරන්න", "create"),
    ("නැති කරන්න", "remove"),
    ("හදනවා", "making/building"),
    ("හත්", "seven"),
    ("දෙනා", "people"),
    ("හත් දෙනා", "seven people"),
    ("ඉන්නේ", "am/is/are"),
    ("දෙකම", "both"),
    ("සහ", "and"),
    ("තව", "more"),
    ("ඒක", "that"),
    ("ඒ", "that/those") ]

/-- The inner loop of `_enhanced_translate`: the first table entry whose key
contains the word or is contained in it (`sinhala_key in word_clean or
word_clean in sinhala_key`), if any. -/
def findMatch (w : List Char) : Option (List Char) :=
  (translationsTable.find? fun kv => occursB kv.1.data w || occursB w kv.1.data).map
    (fun kv => kv.2.data)

/-- One iteration of the word loop of `_enhanced_translate`: translate the
word via the table, or wrap it in bracket markers. -/
def transWord (w : List Char) : List Char :=
  match findMatch (stripWs w) with
  | some v => v
  | none => '[' :: (stripWs w ++ [']'])

/-- `_apply_basic_grammar` (team_bot.py lines 518-529): three fixed
replacements, applied in source order, followed by first-letter
capitalization. -/
def applyBasicGrammarL (t : List Char) : List Char :=
  capFirst
    (replaceAll "need to write".data "need to write".data
      (replaceAll "I am".data "I\x27m".data
        (replaceAll "I am learning both Tamil and Sinhala".data
          "I\x27m learning both Tamil and Sinhala".data t)))

/-- The value `_enhanced_translate` computes before its final emptiness
guard: word-by-word lookup against the fixed table (bracket markers for
unmatched words), space-join, double-space cleanup, strip, basic grammar. -/
def enhancedTranslateCore (s : List Char) : List Char :=
  applyBasicGrammarL
    (stripWs (replaceAll "  ".data " ".data
      (joinSep [' '] ((splitWs s).map transWord))))

/-- `_enhanced_translate` (team_bot.py lines 433-516): the computed
translation, or the `[Translation needed: ...]` marker when it is empty. -/
def enhancedTranslateL (s : List Char) : List Char :=
  if (enhancedTranslateCore s).isEmpty then
    "[Translation needed: ".data ++ s ++ "]".data
  else enhancedTranslateCore s

/-- String-level wrapper for `_enhanced_translate`. -/
def enhancedTranslate (s : String) : String :=
  ⟨enhancedTranslateL s.data⟩

/-! ### The translation adapter (`translate_text`, team_bot.py lines 349-378) -/

/-- Outcome of one call to the remote translation service
(`translation_client.translate`): the call raises, returns a response with no
translations (`if response and len(response) > 0 and response[0].translations`
fails), or yields a translated text. -/
inductive RemoteOutcome
  | raises
  | noTranslation
  | ok (t : String)

/-- The configuration state a bot instance is constructed with: the translator
key (`AZURE_TRANSLATOR_KEY`), the behaviour of the remote translation service
(a fixed oracle, since the service is an external collaborator), whether
`_init_translation_service` failed and left `translation_client = None`, and
the speech key (`AZURE_SPEECH_KEY`). -/
structure BotConfig where
  translatorKey : Option String
  remote : String → RemoteOutcome
  initFailed : Bool
  speechKey : Option String

/-- The guard of `translate_text`: the fallback is taken when
`not self.translator_key or self.translator_key == "mock_value"`.  A missing
key, an empty key (falsy in Python) and the literal placeholder all count as
unconfigured. -/
def translatorConfigured (cfg : BotConfig) : Bool :=
  match cfg.translatorKey with
  | none => false
  | some k => !(k == "") && !(k == "mock_value")

/-- Whether `self.translation_client` is non-`None`: `_init_translation_service`
creates it exactly when the key is configured and initialization did not
raise. -/
def translationClientSome (cfg : BotConfig) : Bool :=
  translatorConfigured cfg && !cfg.initFailed

/-- The correction table of `_post_process_translation` (team_bot.py lines
384-399), in Python dict insertion order. -/
def correctionsTable : List (String × String) :=
  [ ("leopard eyes", "VBS"),
    ("tir res", "tires"),
    ("c company", "CJ company"),
    ("i sell tires at", "I work selling tires at"),
    ("making myself a translator", "building a translator"),
    ("get rid of it", "remove that"),
    ("company", "company"),
    ("business", "business"),
    ("service", "service") ]

/-- The proper-noun list of `_capitalize_properly` (team_bot.py line 427). -/
def properNouns : List String :=
  ["sri lanka", "sinhala", "tamil", "vbs", "cj"]

/-- `_capitalize_properly` (team_bot.py lines 420-431): capitalize the first
letter, then title-case each fixed proper noun. -/
def capitalizeProperlyL (t : List Char) : List Char :=
  properNouns.foldl
    (fun acc noun => replaceAll noun.data (titleCase noun.data) acc)
    (capFirst t)

/-- `_post_process_translation` (team_bot.py lines 380-418): lowercase, apply
the correction table, capitalize properly, and append a business-context hint
when the Sinhala source mentions business terms that the translation lost. -/
def postProcessTranslationL (sinhala english : List Char) : List Char :=
  let processed := correctionsTable.foldl
    (fun acc kv => replaceAll kv.1.data kv.2.data acc)
    (toLowerL english)
  let processed := capitalizeProperlyL processed
  if (occursB "සමාගම".data sinhala || occursB "ව්‍යාපාර".data sinhala ||
      occursB "සේවා".data sinhala) &&
     !(occursB "company".data processed) && !(occursB "business".data processed)
  then processed ++ " (business context)".data
  else processed

/-- String-level wrapper for `_post_process_translation`. -/
def postProcessTranslation (sinhala english : String) : String :=
  ⟨postProcessTranslationL sinhala.data english.data⟩

/-- `translate_text` (team_bot.py lines 349-378): fallback when unconfigured,
remote call otherwise, degrading to the fallback when the call raises or
returns no translation.  Total by construction: every branch returns a
string. -/
def translate_text (cfg : BotConfig) (text : String) : String :=
  if translatorConfigured cfg then
    match cfg.remote text with
    | RemoteOutcome.ok t => postProcessTranslation text t
    | RemoteOutcome.noTranslation => enhancedTranslate text
    | RemoteOutcome.raises => enhancedTranslate text
  else enhancedTranslate text

/-! ### The session registry (`active_sessions`, team_bot.py) -/

/-- An outbound frame on the duplex connection (test_team_bot_locally.py).
`interimResult` models the frame `\x7btype: "partial_result", text, language,
timestamp\x7d`; `finalResult` models `\x7btype: "final_result", session_id,
timestamp, original:\x7btext, language\x7d, translated:\x7btext,
language\x7d\x7d`; `errorFrame` models `\x7btype: "error", message\x7d`;
`startedFrame` and `stoppedFrame` model `transcription_started` /
`transcription_stopped`. -/
inductive Frame
  | interimResult (text lang ts : String)
  | finalResult (sessionId ts origText origLang transText transLang : String)
  | errorFrame (msg : String)
  | startedFrame (sessionId : String)
  | stoppedFrame
deriving DecidableEq

/-- One element of a session's `transcriptions` list: `teamRec` is the flat
record appended by `_process_transcription` (team_bot.py lines 327-339);
`localRec` is the `final_result` dict appended by
`_process_final_transcription` / `_process_realtime_transcription`
(test_team_bot_locally.py). -/
inductive TranscriptItem
  | teamRec (ts orig transl sid : String)
  | localRec (fr : Frame)
deriving DecidableEq

/-- One `active_sessions` entry.  `none` fields model absent dict keys:
`_start_transcription_session` stores `start_time`, `status` and
`transcriptions`; `_stop_transcription_session` adds `end_time`; the
transcription processors create bare `\x7b'transcriptions': []\x7d` entries. -/
structure SessionData where
  startTime : Option String
  endTime : Option String
  status : Option String
  transcriptions : List TranscriptItem
deriving DecidableEq

/-- The `active_sessions` dict, as an association list with unique keys. -/
abbrev Registry := List (String × SessionData)

/-- Python dict lookup `d.get(k)` / `k in d`. -/
def dictGet (k : String) : Registry → Option SessionData
  | [] => none
  | (k', v) :: t => if k' = k then some v else dictGet k t

/-- Python dict assignment `d[k] = v`: overwrite in place, append if fresh. -/
def dictInsert (k : String) (v : SessionData) : Registry → Registry
  | [] => [(k, v)]
  | (k', v') :: t => if k' = k then (k, v) :: t else (k', v') :: dictInsert k v t

/-- In-place mutation of an existing entry (`d[k]['field'] = ...`,
`d[k]['transcriptions'].append(...)`); absent keys are untouched. -/
def dictUpdate (k : String) (f : SessionData → SessionData) : Registry → Registry
  | [] => []
  | (k', v) :: t => if k' = k then (k', f v) :: t else (k', v) :: dictUpdate k f t

/-- `_start_transcription_session` (team_bot.py lines 693-704): store a fresh
session record under the id (silently overwriting an existing one). -/
def startTranscriptionSession (sessionId now : String) (reg : Registry) : Registry :=
  dictInsert sessionId
    { startTime := some now, endTime := none, status := some "active",
      transcriptions := [] } reg

/-- `_stop_transcription_session` (team_bot.py lines 706-715): if the session
is present, set its status to "stopped" and record the end time.  The entry is
not removed. -/
def stopTranscriptionSession (sessionId now : String) (reg : Registry) : Registry :=
  dictUpdate sessionId
    (fun d => { d with status := some "stopped", endTime := some now }) reg

/-- `_process_transcription` (team_bot.py lines 317-347): skip blank text,
translate, create the session entry if missing, and append the record. -/
def processTranscriptionReg (cfg : BotConfig) (sessionId orig ts : String)
    (reg : Registry) : Registry :=
  if (stripWs orig.data).isEmpty then reg
  else
    let english := translate_text cfg orig
    let reg' := if (dictGet sessionId reg).isSome then reg
      else dictInsert sessionId
        { startTime := none, endTime := none, status := none,
          transcriptions := [] } reg
    dictUpdate sessionId
      (fun d => { d with transcriptions :=
        d.transcriptions ++ [TranscriptItem.teamRec ts orig english sessionId] })
      reg'

/-- The `final_result` frame built by `_process_final_transcription` /
`_process_realtime_transcription` (test_team_bot_locally.py lines 361-438). -/
def mkFinalFrame (cfg : BotConfig) (sessionId now text : String) : Frame :=
  Frame.finalResult sessionId now text "si" (translate_text cfg text) "en"

/-- The registry effect of `_process_final_transcription` /
`_process_realtime_transcription`: create the session entry if missing and
append the `final_result` dict to its transcriptions. -/
def appendLocalResult (cfg : BotConfig) (sessionId now text : String)
    (reg : Registry) : Registry :=
  let reg' := if (dictGet sessionId reg).isSome then reg
    else dictInsert sessionId
      { startTime := none, endTime := none, status := none,
        transcriptions := [] } reg
  dictUpdate sessionId
    (fun d => { d with transcriptions :=
      d.transcriptions ++ [TranscriptItem.localRec (mkFinalFrame cfg sessionId now text)] })
    reg'

/-- Response of `get_session_data` (team_bot.py lines 735-747): the stored
session object, or 404 with `\x7b'error': 'Session not found'\x7d`. -/
inductive ApiResponse
  | ok (d : SessionData)
  | notFound
deriving DecidableEq

/-- `get_session_data`: look the session up in `active_sessions`. -/
def get_session_data (sessionId : String) (reg : Registry) : ApiResponse :=
  match dictGet sessionId reg with
  | some d => ApiResponse.ok d
  | none => ApiResponse.notFound

/-- The `active_sessions` count reported by `health_check` (team_bot.py lines
749-755): `len(self.active_sessions)`. -/
def healthActiveSessions (reg : Registry) : Nat :=
  reg.length

/-- Every operation of the program that mutates `active_sessions`:
`_start_transcription_session`, `_stop_transcription_session`,
`_process_transcription`, and the registry effect shared by
`_process_final_transcription` and `_process_realtime_transcription`.
No other code touches the table (the `del` statements in
test_team_bot_locally.py act on `active_websockets`). -/
inductive RegOp
  | startOp (sessionId now : String)
  | stopOp (sessionId now : String)
  | procTransOp (sessionId orig ts : String)
  | procFinalOp (sessionId now text : String)

/-- Apply one registry operation. -/
def applyOp (cfg : BotConfig) : RegOp → Registry → Registry
  | RegOp.startOp sessionId now, reg => startTranscriptionSession sessionId now reg
  | RegOp.stopOp sessionId now, reg => stopTranscriptionSession sessionId now reg
  | RegOp.procTransOp sessionId orig ts, reg =>
      processTranscriptionReg cfg sessionId orig ts reg
  | RegOp.procFinalOp sessionId now text, reg =>
      appendLocalResult cfg sessionId now text reg

/-- Apply a whole run of registry operations, oldest first. -/
def applyOpsList (cfg : BotConfig) (ops : List RegOp) (reg : Registry) : Registry :=
  ops.foldl (fun r op => applyOp cfg op r) reg

/-! ### The per-session result dispatcher (`_process_speech_results` /
`_handle_speech_result`, test_team_bot_locally.py lines 302-359) -/

/-- Payload of one entry of the shared `speech_results_queue`: `interim`
models a `\x7b'type': 'partial', 'text', ...\x7d` dict, `finalRes` a
`'final'` dict, `errorRes` an `'error'` dict. -/
inductive SpeechPayload
  | interim (text ts : String)
  | finalRes (text ts : String)
  | errorRes (msg ts : String)
deriving DecidableEq

/-- One queued speech event.  `sid` is `result.get('session_id')`, hence an
`Option`. -/
structure SpeechResult where
  sid : Option String
  payload : SpeechPayload
deriving DecidableEq

/-- The state a dispatcher task operates over: the shared
`speech_results_queue` (front of the list is the queue head), the keys of
`active_websockets`, the frames sent over each session's websocket (in send
order, as (session, frame) pairs), the events actually passed to
`_handle_speech_result` (a trace of the calls made by the dispatch loop), the
shared `active_sessions` table, and the current wall-clock reading used for
`datetime.now().isoformat()`. -/
structure DState where
  queue : List SpeechResult
  sockets : List String
  sent : List (String × Frame)
  delivered : List SpeechResult
  sessions : Registry
  now : String

/-- `_handle_speech_result(result, session_id)` (lines 330-359): re-fetch the
session's websocket, then forward a partial result as a `partial_result`
frame, process a final result through translation into a `final_result` frame
(also appending it to `active_sessions` via
`_process_final_transcription`), and forward an error verbatim. -/
def handleResult (cfg : BotConfig) (own : String) (ev : SpeechResult)
    (st : DState) : DState :=
  if own ∈ st.sockets then
    match ev.payload with
    | SpeechPayload.interim text ts =>
        { st with sent := st.sent ++ [(own, Frame.interimResult text "si" ts)] }
    | SpeechPayload.finalRes text _ts =>
        { st with
          sent := st.sent ++ [(own, mkFinalFrame cfg own st.now text)],
          sessions := appendLocalResult cfg own st.now text st.sessions }
    | SpeechPayload.errorRes msg _ts =>
        { st with sent := st.sent ++ [(own, Frame.errorFrame msg)] }
  else st

/-- One iteration of the `while` body of `_process_speech_results`: pop the
queue head (an empty queue is the `queue.Empty` sleep path), deliver it to
`_handle_speech_result` when it carries this session's id, and otherwise put
it back at the tail of the queue. -/
def dispatchStep (cfg : BotConfig) (own : String) (st : DState) : DState :=
  match st.queue with
  | [] => st
  | ev :: rest =>
    if ev.sid = some own then
      let st' := handleResult cfg own ev { st with queue := rest }
      { st' with delivered := st'.delivered ++ [ev] }
    else
      { st with queue := rest ++ [ev] }

/-- The dispatch loop of `_process_speech_results(session_id)`: before each
iteration the loop condition `session_id in self.active_websockets` is
checked; once it fails the task returns and performs no further iterations.
Fuel bounds the number of iterations observed. -/
def dispatchRun (cfg : BotConfig) (own : String) : Nat → DState → DState
  | 0, st => st
  | n + 1, st =>
    if own ∈ st.sockets then dispatchRun cfg own n (dispatchStep cfg own st)
    else st

/-- The number of queued events tagged with a given session id (the
observable used to state that requeued events are never dropped). -/
def countS (s : Option String) (q : List SpeechResult) : Nat :=
  q.countP (fun e => decide (e.sid = s))

/-- `del self.active_websockets[session_id]` (test_team_bot_locally.py lines
117-118 and 155-156): the stop-transcription frame and connection teardown
both remove the session's websocket registration. -/
def removeWs (own : String) (st : DState) : DState :=
  { st with sockets := st.sockets.filter (fun x => !(x == own)) }

/-! ### The scripted fallback (`_start_mock_transcription` /
`_start_realtime_transcription`, test_team_bot_locally.py lines 161-300) -/

/-- The guard of `_start_realtime_transcription`: the mock path is taken when
`not self.speech_key or self.speech_key == "mock_value"`. -/
def speechConfigured (cfg : BotConfig) : Bool :=
  match cfg.speechKey with
  | none => false
  | some k => !(k == "") && !(k == "mock_value")

/-- The frames the scripted mock task of `_start_mock_transcription` sends
over the session's websocket, in order: one `partial_result` frame with the
canned phrase "කොහොමද", then the `final_result` frame that
`_process_realtime_transcription` builds from the canned phrase
"කොහොමද ඔබට?". -/
def mockTranscriptionFrames (cfg : BotConfig) (sessionId now : String) : List Frame :=
  [ Frame.interimResult "කොහොමද" "si" now,
    mkFinalFrame cfg sessionId now "කොහොමද ඔබට?" ]

/-- The scripted frames emitted after `start_transcription`, together with the
resulting `active_sessions` table: when the recognizer is unconfigured the
scripted fallback runs (`_process_realtime_transcription` also stores the
final result); when it is configured no scripted frame is emitted — frames
then come only from real recognizer events through the dispatcher. -/
def startRealtimeScripted (cfg : BotConfig) (sessionId now : String)
    (reg : Registry) : List Frame × Registry :=
  if speechConfigured cfg then ([], reg)
  else
    (mockTranscriptionFrames cfg sessionId now,
     appendLocalResult cfg sessionId now "කොහොමද ඔබට?" reg)

/-! ### The local test app routes (`create_app`, test_team_bot_locally.py
lines 439-467) and the two translation handlers -/

/-- HTTP method of a registered route. -/
inductive HMethod
  | get
  | post
deriving DecidableEq, BEq

/-- Identifier of each handler `create_app` registers. -/
inductive HandlerId
  | serveTestInterface
  | wsHandler
  | teamsWebhook
  | translationTest
  | testTranslationH
  | sessionData
  | healthH
deriving DecidableEq

/-- The route table of the local bot's `create_app`, in registration order.
`POST /api/translate` is registered twice: first for
`handle_translation_test` (line 457), then for `test_translation`
(line 459). -/
def localRoutes : List (HMethod × String × HandlerId) :=
  [ (HMethod.get, "/", HandlerId.serveTestInterface),
    (HMethod.get, "/ws", HandlerId.wsHandler),
    (HMethod.post, "/api/messages", HandlerId.teamsWebhook),
    (HMethod.post, "/api/translate", HandlerId.translationTest),
    (HMethod.get, "/api/sessions/\x7bsession_id\x7d", HandlerId.sessionData),
    (HMethod.post, "/api/translate", HandlerId.testTranslationH),
    (HMethod.get, "/health", HandlerId.healthH) ]

/-- aiohttp resolves a request against the resources in registration order and
dispatches to the first route whose path and method match, so a duplicate
registration is shadowed by the earlier one. -/
def resolveRoute (m : HMethod) (p : String) : Option HandlerId :=
  (localRoutes.find? fun r => r.1 == m && r.2.1 == p).map (fun r => r.2.2)

/-- The JSON body of a `POST /api/translate` request as the handlers read it:
either `request.json()` raises, or it yields a dict whose `text` field is
absent or a string. -/
inductive TranslateBody
  | badJson
  | withText (t : Option String)

/-- A JSON response: HTTP status and the name/value pairs of the object, in
construction order. -/
structure JsonResponse where
  status : Nat
  fields : List (String × String)
deriving DecidableEq

/-- `handle_translation_test` (test_team_bot_locally.py lines 48-68): 400 when
the text is missing or empty, otherwise 200 with fields `original`,
`translation` and `timestamp`.  A body that fails to parse is answered by the
`except` path with status 500.  (Error message bodies are abstracted.) -/
def handle_translation_test (cfg : BotConfig) (now : String)
    (body : TranslateBody) : JsonResponse :=
  match body with
  | TranslateBody.badJson => { status := 500, fields := [("error", "exception")] }
  | TranslateBody.withText t =>
    let text := t.getD ""
    if text = "" then { status := 400, fields := [("error", "No text provided")] }
    else
      { status := 200,
        fields := [("original", text), ("translation", translate_text cfg text),
                   ("timestamp", now)] }

/-- `test_translation` (test_team_bot_locally.py lines 27-46): like
`handle_translation_test` but with a `service` field reporting "azure" when
`self.translation_client` is set and "mock" otherwise. -/
def test_translation (cfg : BotConfig) (now : String)
    (body : TranslateBody) : JsonResponse :=
  match body with
  | TranslateBody.badJson => { status := 500, fields := [("error", "exception")] }
  | TranslateBody.withText t =>
    let text := t.getD ""
    if text = "" then { status := 400, fields := [("error", "No text provided")] }
    else
      { status := 200,
        fields := [("original", text), ("translation", translate_text cfg text),
                   ("service", if translationClientSome cfg then "azure" else "mock")] }

/-- The response of the local app to `POST /api/translate`: resolve the route,
then run the handler it names. -/
def serveTranslate (cfg : BotConfig) (now : String) (body : TranslateBody) :
    JsonResponse :=
  match resolveRoute HMethod.post "/api/translate" with
  | some HandlerId.translationTest => handle_translation_test cfg now body
  | some HandlerId.testTranslationH => test_translation cfg now body
  | _ => { status := 404, fields := [] }

/-! ### Registry lemmas -/

/-- Looking up `k` after updating `k'` in place: the update is visible exactly
at its own key. -/
theorem dictGet_dictUpdate (k k' : String) (f : SessionData → SessionData) :
    ∀ reg : Registry,
      dictGet k (dictUpdate k' f reg) =
        if k' = k then (dictGet k reg).map f else dictGet k reg := by
  intro reg
  induction reg with
  | nil => by_cases h : k' = k <;> simp [dictGet, dictUpdate, h]
  | cons hd tl ih =>
    obtain ⟨a, b⟩ := hd
    by_cases hak : a = k <;> by_cases hak' : a = k' <;>
      by_cases hkk : k' = k <;>
      simp_all [dictGet, dictUpdate]

/-- Looking up `k` after writing `k'`: the write is visible exactly at its own
key. -/
theorem dictGet_dictInsert (k k' : String) (v : SessionData) :
    ∀ reg : Registry,
      dictGet k (dictInsert k' v reg) =
        if k' = k then some v else dictGet k reg := by
  intro reg
  induction reg with
  | nil => by_cases h : k' = k <;> simp [dictGet, dictInsert, h]
  | cons hd tl ih =>
    obtain ⟨a, b⟩ := hd
    by_cases hak : a = k <;> by_cases hak' : a = k' <;>
      by_cases hkk : k' = k <;>
      simp_all [dictGet, dictInsert]

/-- In-place update never changes the number of entries. -/
theorem length_dictUpdate (k : String) (f : SessionData → SessionData) :
    ∀ reg : Registry, (dictUpdate k f reg).length = reg.length := by
  intro reg
  induction reg with
  | nil => rfl
  | cons hd tl ih =>
    obtain ⟨a, b⟩ := hd
    by_cases h : a = k <;> simp [dictUpdate, h, ih]

/-- A dict write never shrinks the table. -/
theorem length_le_dictInsert (k : String) (v : SessionData) :
    ∀ reg : Registry, reg.length ≤ (dictInsert k v reg).length := by
  intro reg
  induction reg with
  | nil => simp [dictInsert]
  | cons hd tl ih =>
    obtain ⟨a, b⟩ := hd
    by_cases h : a = k <;> simp [dictInsert, h] <;> omega

/-- Every single registry operation of the program preserves existing keys and
never shrinks the table. -/
theorem applyOp_preserves (cfg : BotConfig) (op : RegOp) (reg : Registry) :
    (∀ k, (dictGet k reg).isSome = true →
      (dictGet k (applyOp cfg op reg)).isSome = true) ∧
    reg.length ≤ (applyOp cfg op reg).length := by
  cases op with
  | startOp sessionId now =>
    refine ⟨fun k hk => ?_, length_le_dictInsert _ _ _⟩
    rw [applyOp, startTranscriptionSession, dictGet_dictInsert]
    by_cases h : sessionId = k <;> simp [h, hk]
  | stopOp sessionId now =>
    refine ⟨fun k hk => ?_, ?_⟩
    · rw [applyOp, stopTranscriptionSession, dictGet_dictUpdate]
      by_cases h : sessionId = k <;> simp [h, hk] <;>
        cases hv : dictGet k reg <;> simp_all
    · rw [applyOp, stopTranscriptionSession, length_dictUpdate]
  | procTransOp sessionId orig ts =>
    rw [applyOp, processTranscriptionReg]
    by_cases hblank : (stripWs orig.data).isEmpty
    · simp [hblank]
    · simp only [hblank, if_false, Bool.false_eq_true]
      refine ⟨fun k hk => ?_, ?_⟩
      · rw [dictGet_dictUpdate]
        by_cases hup : sessionId = k <;>
          by_cases hpre : (dictGet sessionId reg).isSome <;>
          simp [hup, hpre, dictGet_dictInsert, hk] <;>
          cases hv : dictGet k reg <;> simp_all
      · by_cases hpre : (dictGet sessionId reg).isSome <;>
          simp [hpre, length_dictUpdate, length_le_dictInsert]
  | procFinalOp sessionId now text =>
    rw [applyOp, appendLocalResult]
    refine ⟨fun k hk => ?_, ?_⟩
    · rw [dictGet_dictUpdate]
      by_cases hup : sessionId = k <;>
        by_cases hpre : (dictGet sessionId reg).isSome <;>
        simp [hup, hpre, dictGet_dictInsert, hk] <;>
        cases hv : dictGet k reg <;> simp_all
    · by_cases hpre : (dictGet sessionId reg).isSome <;>
        simp [hpre, length_dictUpdate, length_le_dictInsert]

/-! ### Claim theorems -/

/-- Claim C1 counterexample: on the concrete registry holding session "c1",
handling a stop-transcription request does not remove the session — the
subsequent `GET /api/sessions/c1` returns the stored session object (with
status "stopped"), not the 404 response the claim asserts. -/
theorem c1_stop_counterexample :
    get_session_data "c1" (stopTranscriptionSession "c1" "t1"
        (startTranscriptionSession "c1" "t0" [])) =
      ApiResponse.ok
        { startTime := some "t0", endTime := some "t1",
          status := some "stopped", transcriptions := [] } ∧
    get_session_data "c1" (stopTranscriptionSession "c1" "t1"
        (startTranscriptionSession "c1" "t0" [])) ≠ ApiResponse.notFound ∧
    (dictGet "c1" (stopTranscriptionSession "c1" "t1"
        (startTranscriptionSession "c1" "t0" []))).isSome = true := by
  refine ⟨by decide, by decide, by decide⟩

/-- Claim C1 (amended): for every session id present in the registry, handling
a stop-transcription request keeps the session in the registry, marking its
status "stopped" and recording an end time, so a subsequent
`GET /api/sessions/{session_id}` returns the stored session object rather
than 404. -/
theorem c1_stop_keeps_session (sessionId now : String) (reg : Registry)
    (d : SessionData) (h : dictGet sessionId reg = some d) :
    get_session_data sessionId (stopTranscriptionSession sessionId now reg) =
      ApiResponse.ok { d with status := some "stopped", endTime := some now } := by
  rw [get_session_data, stopTranscriptionSession, dictGet_dictUpdate]
  simp [h]

/-- Witness for the amended claim C1 at a concrete registry. -/
theorem c1_stop_keeps_session_witness :
    get_session_data "a" (stopTranscriptionSession "a" "t9"
        [("a", { startTime := some "t0", endTime := none,
                 status := some "active", transcriptions := [] })]) =
      ApiResponse.ok
        { startTime := some "t0", endTime := some "t9",
          status := some "stopped", transcriptions := [] } :=
  c1_stop_keeps_session "a" "t9"
    [("a", { startTime := some "t0", endTime := none,
             status := some "active", transcriptions := [] })]
    { startTime := some "t0", endTime := none,
      status := some "active", transcriptions := [] } (by decide)

/-- Claim C10: no operation of the program deletes an entry from
`active_sessions` — over any run of registry operations every existing key
stays present (stopped sessions remain stored and retrievable), and the
`active_sessions` count reported by `GET /health`, which counts every stored
session regardless of status, is monotonically non-decreasing; in particular
stopping a session leaves the count unchanged. -/
theorem c10_registry_only_grows (cfg : BotConfig) (ops : List RegOp) :
    ∀ reg : Registry,
      (∀ k, (dictGet k reg).isSome = true →
        (dictGet k (applyOpsList cfg ops reg)).isSome = true) ∧
      healthActiveSessions reg ≤ healthActiveSessions (applyOpsList cfg ops reg) ∧
      ∀ sessionId now,
        healthActiveSessions (stopTranscriptionSession sessionId now reg) =
          healthActiveSessions reg := by
  induction ops with
  | nil =>
    intro reg
    exact ⟨fun k hk => hk, Nat.le_refl _,
      fun sessionId now => length_dictUpdate _ _ _⟩
  | cons op ops ih =>
    intro reg
    have hop := applyOp_preserves cfg op reg
    have hrest := ih (applyOp cfg op reg)
    refine ⟨fun k hk => ?_, ?_, fun sessionId now => length_dictUpdate _ _ _⟩
    · exact hrest.1 k (hop.1 k hk)
    · exact Nat.le_trans hop.2 hrest.2.1

/-- Witness for claim C10: a concrete run (start then stop of one session,
plus a transcription for another) keeps a pre-existing key present. -/
theorem c10_registry_only_grows_witness :
    (dictGet "b" (applyOpsList
        ⟨none, fun _ => RemoteOutcome.raises, false, none⟩
        [RegOp.startOp "a" "t0", RegOp.stopOp "a" "t1",
         RegOp.procFinalOp "c" "t2" "hello"]
        [("b", { startTime := none, endTime := none, status := none,
                 transcriptions := [] })])).isSome = true :=
  (c10_registry_only_grows ⟨none, fun _ => RemoteOutcome.raises, false, none⟩
      [RegOp.startOp "a" "t0", RegOp.stopOp "a" "t1",
       RegOp.procFinalOp "c" "t2" "hello"]
      [("b", { startTime := none, endTime := none, status := none,
               transcriptions := [] })]).1 "b" (by decide)

/-- Claim C5: `translate_text` is total (it is a function into `String`, so it
never raises to its caller), and on every degraded path — translation service
unconfigured, remote call raising, or remote call returning no translation —
it returns the table-driven fallback `_enhanced_translate` of the input. -/
theorem c5_translate_degrades_to_fallback (cfg : BotConfig) (text : String) :
    (translatorConfigured cfg = false →
      translate_text cfg text = enhancedTranslate text) ∧
    (cfg.remote text = RemoteOutcome.raises →
      translate_text cfg text = enhancedTranslate text) ∧
    (cfg.remote text = RemoteOutcome.noTranslation →
      translate_text cfg text = enhancedTranslate text) := by
  refine ⟨fun h => ?_, fun h => ?_, fun h => ?_⟩
  · simp [translate_text, h]
  · by_cases hc : translatorConfigured cfg <;> simp [translate_text, hc, h]
  · by_cases hc : translatorConfigured cfg <;> simp [translate_text, hc, h]

/-- Witness for claim C5: with the placeholder key, `translate_text` returns
the fallback translation. -/
theorem c5_translate_degrades_to_fallback_witness :
    translate_text ⟨some "mock_value", fun _ => RemoteOutcome.raises, false, none⟩
        "hello" = enhancedTranslate "hello" :=
  (c5_translate_degrades_to_fallback
    ⟨some "mock_value", fun _ => RemoteOutcome.raises, false, none⟩ "hello").1
    (by decide)

/-- Claim C6: `translate_text` is a pure function of the input text, the
dependency-availability flag, and (when the service is available) the fixed
behaviour of the external service: two calls under the same availability
state, with no configuration change in between, return identical strings —
in particular, with the service unavailable the output depends on the input
text alone. -/
theorem c6_translate_deterministic (cfg₁ cfg₂ : BotConfig) (t : String)
    (hflag : translatorConfigured cfg₁ = translatorConfigured cfg₂)
    (hremote : translatorConfigured cfg₁ = true → cfg₁.remote = cfg₂.remote) :
    translate_text cfg₁ t = translate_text cfg₂ t := by
  by_cases hc : translatorConfigured cfg₁
  · rw [translate_text, translate_text, ← hflag, hremote hc]
  · have hc' : translatorConfigured cfg₁ = false := by
      simpa using hc
    simp [translate_text, hc', ← hflag]

/-- Witness for claim C6: two entirely different unconfigured states (missing
key with a raising remote vs. empty key with a succeeding remote) translate
"hello" identically. -/
theorem c6_translate_deterministic_witness :
    translate_text ⟨none, fun _ => RemoteOutcome.raises, true, some "k"⟩ "hello" =
      translate_text ⟨some "", fun _ => RemoteOutcome.ok "ZZZ", false, none⟩ "hello" :=
  c6_translate_deterministic _ _ "hello" (by decide)
    (by intro h; simp [translatorConfigured] at h)

/-- Claim C2 counterexample: `POST /api/translate` is served by the first
registered handler, `handle_translation_test`, whose success response carries
exactly the fields `original`, `translation` and `timestamp` — there is no
`service` field, contrary to the claim. -/
theorem c2_translate_route_counterexample :
    resolveRoute HMethod.post "/api/translate" = some HandlerId.translationTest ∧
    (serveTranslate ⟨none, fun _ => RemoteOutcome.raises, false, none⟩ "t0"
        (TranslateBody.withText (some "hello"))).fields.map Prod.fst =
      ["original", "translation", "timestamp"] ∧
    "service" ∉ (serveTranslate ⟨none, fun _ => RemoteOutcome.raises, false, none⟩
        "t0" (TranslateBody.withText (some "hello"))).fields.map Prod.fst := by
  refine ⟨by decide, by decide, by decide⟩

/-- Claim C2 (amended): for every `POST /api/translate` request with a
non-empty `text` field, the handler that serves the route (the first
registered one, `handle_translation_test`) returns 200 with exactly the
fields `original` (the input text), `translation` (the translated text) and
`timestamp`; the second registration of the route (`test_translation`, which
would report `service` as "azure" or "mock") is shadowed and never serves. -/
theorem c2_translate_route_fields (cfg : BotConfig) (now text : String)
    (h : text ≠ "") :
    serveTranslate cfg now (TranslateBody.withText (some text)) =
      { status := 200,
        fields := [("original", text), ("translation", translate_text cfg text),
                   ("timestamp", now)] } := by
  have hr : resolveRoute HMethod.post "/api/translate" =
      some HandlerId.translationTest := by decide
  simp [serveTranslate, hr, handle_translation_test, h]

/-- Witness for the amended claim C2 at a concrete request. -/
theorem c2_translate_route_fields_witness :
    serveTranslate ⟨none, fun _ => RemoteOutcome.raises, false, none⟩ "t1"
        (TranslateBody.withText (some "hi")) =
      { status := 200,
        fields := [("original", "hi"),
          ("translation",
            translate_text ⟨none, fun _ => RemoteOutcome.raises, false, none⟩ "hi"),
          ("timestamp", "t1")] } :=
  c2_translate_route_fields _ "t1" "hi" (by decide)

/-- Claim C8: when the recognizer is unconfigured, starting transcription
activates the scripted fallback, which emits to the session's outbound
channel exactly one `partial_result` frame carrying the canned phrase
"කොහොමද" followed by exactly one `final_result` frame derived from the second
canned phrase "කොහොමද ඔබට?" (original text plus its translation), in that
order and nothing else. -/
theorem c8_scripted_fallback (cfg : BotConfig) (sessionId now : String)
    (reg : Registry) (h : speechConfigured cfg = false) :
    (startRealtimeScripted cfg sessionId now reg).1 =
      [Frame.interimResult "කොහොමද" "si" now,
       Frame.finalResult sessionId now "කොහොමද ඔබට?" "si"
         (translate_text cfg "කොහොමද ඔබට?") "en"] := by
  simp [startRealtimeScripted, h, mockTranscriptionFrames, mkFinalFrame]

/-- Witness for claim C8 with the placeholder speech key. -/
theorem c8_scripted_fallback_witness :
    (startRealtimeScripted
        ⟨none, fun _ => RemoteOutcome.raises, false, some "mock_value"⟩
        "s1" "t0" []).1 =
      [Frame.interimResult "කොහොමද" "si" "t0",
       Frame.finalResult "s1" "t0" "කොහොමද ඔබට?" "si"
         (translate_text ⟨none, fun _ => RemoteOutcome.raises, false, some "mock_value"⟩
           "කොහොමද ඔබට?") "en"] :=
  c8_scripted_fallback _ "s1" "t0" [] (by decide)

/-! ### Dispatcher lemmas -/

/-- `_handle_speech_result` never touches the shared queue. -/
theorem handleResult_queue (cfg : BotConfig) (own : String) (ev : SpeechResult)
    (st : DState) : (handleResult cfg own ev st).queue = st.queue := by
  by_cases hm : own ∈ st.sockets <;> cases hp : ev.payload <;>
    simp [handleResult, hm, hp]

/-- `_handle_speech_result` never touches the websocket registry. -/
theorem handleResult_sockets (cfg : BotConfig) (own : String) (ev : SpeechResult)
    (st : DState) : (handleResult cfg own ev st).sockets = st.sockets := by
  by_cases hm : own ∈ st.sockets <;> cases hp : ev.payload <;>
    simp [handleResult, hm, hp]

/-- `_handle_speech_result` does not extend the delivery trace itself. -/
theorem handleResult_delivered (cfg : BotConfig) (own : String)
    (ev : SpeechResult) (st : DState) :
    (handleResult cfg own ev st).delivered = st.delivered := by
  by_cases hm : own ∈ st.sockets <;> cases hp : ev.payload <;>
    simp [handleResult, hm, hp]

/-- One dispatcher iteration leaves the websocket registry unchanged. -/
theorem dispatchStep_sockets (cfg : BotConfig) (own : String) (st : DState) :
    (dispatchStep cfg own st).sockets = st.sockets := by
  cases hq : st.queue with
  | nil => simp [dispatchStep, hq]
  | cons ev rest =>
    by_cases hs : ev.sid = some own <;>
      simp [dispatchStep, hq, hs, handleResult_sockets]

/-- If the loop condition already fails, the dispatch loop performs no
iteration at all: the state is returned untouched for any amount of fuel. -/
theorem dispatchRun_halt (cfg : BotConfig) (own : String) (n : Nat)
    (st : DState) (h : own ∉ st.sockets) : dispatchRun cfg own n st = st := by
  cases n with
  | zero => rfl
  | succ n => simp [dispatchRun, h]

/-- With an empty queue the dispatch loop only sleeps: any number of
iterations leaves the state unchanged. -/
theorem dispatchRun_empty_queue (cfg : BotConfig) (own : String) :
    ∀ (n : Nat) (st : DState), st.queue = [] → dispatchRun cfg own n st = st := by
  intro n
  induction n with
  | zero => intro st _; rfl
  | succ n ih =>
    intro st h
    have hstep : dispatchStep cfg own st = st := by
      simp [dispatchStep, h]
    by_cases hm : own ∈ st.sockets
    · simp [dispatchRun, hm, hstep, ih st h]
    · simp [dispatchRun, hm]

/-- One dispatcher iteration delivers only own-session events and conserves
the queued events of every other session. -/
theorem dispatchStep_spec (cfg : BotConfig) (own : String) (st : DState)
    (hdel : ∀ e ∈ st.delivered, e.sid = some own) :
    (∀ e ∈ (dispatchStep cfg own st).delivered, e.sid = some own) ∧
    (∀ s, s ≠ some own →
      countS s (dispatchStep cfg own st).queue = countS s st.queue) := by
  cases hq : st.queue with
  | nil =>
    refine ⟨?_, ?_⟩
    · simpa [dispatchStep, hq] using hdel
    · intro s _; simp [dispatchStep, hq]
  | cons ev rest =>
    by_cases hs : ev.sid = some own
    · refine ⟨?_, ?_⟩
      · intro e he
        simp [dispatchStep, hq, hs, handleResult_delivered] at he
        rcases he with he | he
        · exact hdel e he
        · rw [he, hs]
      · intro s hne
        simp only [dispatchStep, hq, hs, if_pos rfl]
        rw [countS, countS, handleResult_queue]
        simp [hq, countS, List.countP_cons]
        intro habs
        exact absurd (habs.symm.trans hs) hne
    · refine ⟨?_, ?_⟩
      · intro e he
        simp [dispatchStep, hq, hs] at he
        exact hdel e he
      · intro s hne
        simp [dispatchStep, hq, hs, countS, List.countP_cons,
          List.countP_append]

/-! ### Dispatcher claim theorems -/

/-- Claim C9: once a session is removed from the registry of live websockets
(stop-transcription frame or connection teardown both execute
`del self.active_websockets[session_id]`), its dispatcher loop
`_process_speech_results` performs no further iterations, however much fuel
it is given — the polling task halts rather than leaking. -/
theorem c9_dispatcher_halts_after_removal (cfg : BotConfig) (own : String)
    (n m : Nat) (st : DState) :
    dispatchRun cfg own m (removeWs own (dispatchRun cfg own n st)) =
      removeWs own (dispatchRun cfg own n st) := by
  apply dispatchRun_halt
  intro hmem
  simp [removeWs, List.mem_filter] at hmem

/-- Unfolding lemma for one iteration of the dispatch loop. -/
theorem dispatchRun_succ (cfg : BotConfig) (own : String) (n : Nat)
    (st : DState) :
    dispatchRun cfg own (n + 1) st =
      if own ∈ st.sockets then dispatchRun cfg own n (dispatchStep cfg own st)
      else st := rfl

/-- Claim C3: feeding one session's dispatcher the events Partial(a),
Partial(b), Final(c), in that order, makes it emit over that session's
outbound channel exactly the frames partial_result(a), partial_result(b),
final_result(translate(c)), in that order — no partial dropped, nothing
reordered, regardless of any extra polling iterations afterwards. -/
theorem c3_dispatch_order (cfg : BotConfig)
    (own a b c ts₁ ts₂ ts₃ nowS : String) (socks : List String)
    (reg : Registry) (k : Nat) (hown : own ∈ socks) :
    (dispatchRun cfg own (k + 3)
      { queue := [⟨some own, SpeechPayload.interim a ts₁⟩,
                  ⟨some own, SpeechPayload.interim b ts₂⟩,
                  ⟨some own, SpeechPayload.finalRes c ts₃⟩],
        sockets := socks, sent := [], delivered := [], sessions := reg,
        now := nowS }).sent =
      [(own, Frame.interimResult a "si" ts₁),
       (own, Frame.interimResult b "si" ts₂),
       (own, Frame.finalResult own nowS c "si" (translate_text cfg c) "en")] := by
  have hf : k + 3 = ((k + 1) + 1) + 1 := by omega
  rw [hf, dispatchRun_succ]
  simp only [hown, if_pos]
  rw [dispatchRun_succ]
  simp only [dispatchStep, handleResult, hown, if_pos, reduceIte]
  rw [dispatchRun_succ]
  simp only [dispatchStep, handleResult, hown, if_pos, reduceIte]
  rw [dispatchRun_empty_queue cfg own k _ (by simp [dispatchStep, handleResult, hown])]
  simp [dispatchStep, handleResult, hown, mkFinalFrame]

/-- Witness for claim C3 on a concrete session and queue. -/
theorem c3_dispatch_order_witness :
    (dispatchRun ⟨none, fun _ => RemoteOutcome.raises, false, none⟩ "A" 3
      { queue := [⟨some "A", SpeechPayload.interim "x" "t1"⟩,
                  ⟨some "A", SpeechPayload.interim "y" "t2"⟩,
                  ⟨some "A", SpeechPayload.finalRes "z" "t3"⟩],
        sockets := ["A"], sent := [], delivered := [], sessions := [],
        now := "T" }).sent =
      [("A", Frame.interimResult "x" "si" "t1"),
       ("A", Frame.interimResult "y" "si" "t2"),
       ("A", Frame.finalResult "A" "T" "z" "si"
         (translate_text ⟨none, fun _ => RemoteOutcome.raises, false, none⟩ "z")
         "en")] :=
  c3_dispatch_order ⟨none, fun _ => RemoteOutcome.raises, false, none⟩
    "A" "x" "y" "z" "t1" "t2" "t3" "T" ["A"] [] 0 (by simp)

/-- Claim C4: a dispatcher owned by session Y never passes an event tagged
with a different session to `_handle_speech_result` (so nothing of it reaches
Y's outbound channel) — every delivered event carries Y's own id — and the
events of every other session are requeued, never dropped: their multiplicity
in the shared queue is conserved across any number of loop iterations, hence
over every interleaving of two sessions' events on the one shared queue. -/
theorem c4_event_routing (cfg : BotConfig) (own : String) :
    ∀ (fuel : Nat) (st : DState),
      (∀ e ∈ st.delivered, e.sid = some own) →
      (∀ e ∈ (dispatchRun cfg own fuel st).delivered, e.sid = some own) ∧
      (∀ s, s ≠ some own →
        countS s (dispatchRun cfg own fuel st).queue = countS s st.queue) := by
  intro fuel
  induction fuel with
  | zero =>
    intro st hdel
    exact ⟨hdel, fun s _ => rfl⟩
  | succ n ih =>
    intro st hdel
    by_cases hm : own ∈ st.sockets
    · have hstep := dispatchStep_spec cfg own st hdel
      have ihres := ih (dispatchStep cfg own st) hstep.1
      rw [dispatchRun_succ]
      simp only [hm, if_pos]
      exact ⟨ihres.1, fun s hne => (ihres.2 s hne).trans (hstep.2 s hne)⟩
    · rw [dispatchRun_succ]
      simp only [hm, if_neg]
      exact ⟨hdel, fun s _ => rfl⟩

/-- Witness for claim C4: interleaving events of sessions "A" and "B" on the
shared queue, session A's dispatcher conserves B's events. -/
theorem c4_event_routing_witness :
    countS (some "B")
      (dispatchRun ⟨none, fun _ => RemoteOutcome.raises, false, none⟩ "A" 4
        { queue := [⟨some "B", SpeechPayload.interim "x" "t"⟩,
                    ⟨some "A", SpeechPayload.interim "y" "t"⟩,
                    ⟨some "B", SpeechPayload.finalRes "z" "t"⟩],
          sockets := ["A"], sent := [], delivered := [], sessions := [],
          now := "T" }).queue =
      countS (some "B")
        [⟨some "B", SpeechPayload.interim "x" "t"⟩,
         ⟨some "A", SpeechPayload.interim "y" "t"⟩,
         ⟨some "B", SpeechPayload.finalRes "z" "t"⟩] :=
  (c4_event_routing ⟨none, fun _ => RemoteOutcome.raises, false, none⟩ "A" 4
      { queue := [⟨some "B", SpeechPayload.interim "x" "t"⟩,
                  ⟨some "A", SpeechPayload.interim "y" "t"⟩,
                  ⟨some "B", SpeechPayload.finalRes "z" "t"⟩],
        sockets := ["A"], sent := [], delivered := [], sessions := [],
        now := "T" } (by simp)).2 (some "B") (by decide)

/-! ### Substring-occurrence lemmas for the fallback translator -/

/-- The character data of an explicitly constructed string. -/
theorem string_mk_data (l : List Char) : (String.mk l).data = l := rfl

/-- A bracketed segment occurring in a list makes the list non-empty. -/
theorem occurs_ne_nil (c : Char) (z t : List Char) (h : Occurs (c :: z) t) :
    t.isEmpty = false := by
  obtain ⟨u, v, ht⟩ := h
  rw [ht]
  cases u <;> simp

/-- Occurrence is preserved by prepending. -/
theorem occurs_append_left (p x t : List Char) (h : Occurs p t) :
    Occurs p (x ++ t) := by
  obtain ⟨u, v, ht⟩ := h
  exact ⟨x ++ u, v, by rw [ht]; simp⟩

/-- Occurrence transports through `reverse`. -/
theorem occurs_reverse (p t : List Char) (h : Occurs p t) :
    Occurs p.reverse t.reverse := by
  obtain ⟨u, v, ht⟩ := h
  exact ⟨v.reverse, u.reverse, by rw [ht]; simp⟩

/-- Every string of the joined list occurs in the join. -/
theorem occurs_joinSep (sep : List Char) :
    ∀ (l : List (List Char)) (x : List Char), x ∈ l → Occurs x (joinSep sep l) := by
  intro l
  induction l with
  | nil => intro x hx; simp at hx
  | cons y t ih =>
    intro x hx
    cases t with
    | nil =>
      simp at hx
      exact ⟨[], [], by simp [hx, joinSep]⟩
    | cons z t' =>
      rcases List.mem_cons.mp hx with hx' | hx'
      · exact ⟨[], sep ++ joinSep sep (z :: t'), by rw [hx']; simp [joinSep]⟩
      · obtain ⟨u, v, hu⟩ := ih x hx'
        exact ⟨y ++ sep ++ u, v, by simp [joinSep, hu]⟩

/-- Words produced by the whitespace split contain no whitespace. -/
theorem splitWsF_mem : ∀ (fuel : Nat) (s w : List Char), w ∈ splitWsF fuel s →
    ∀ c ∈ w, isSpaceChar c = false := by
  intro fuel
  induction fuel with
  | zero =>
    intro s w hw
    cases s <;> simp [splitWsF] at hw
  | succ f ih =>
    intro s w hw
    cases s with
    | nil => simp [splitWsF] at hw
    | cons c t =>
      by_cases hc : isSpaceChar c
      · simp only [splitWsF, hc, if_pos] at hw
        exact ih t w hw
      · simp only [splitWsF, hc, if_neg, Bool.false_eq_true, not_false_iff,
          List.mem_cons] at hw
        rcases hw with hw | hw
        · intro x hx
          rw [hw] at hx
          rcases List.mem_cons.mp hx with hx' | hx'
          · rw [hx']
            simpa using hc
          · have := List.mem_takeWhile_imp hx'
            simpa using this
        · exact ih _ w hw

/-- Dropping leading whitespace from an all-non-whitespace list is the
identity. -/
theorem dropWhile_eq_self_of (l : List Char)
    (h : ∀ c ∈ l, isSpaceChar c = false) : l.dropWhile isSpaceChar = l := by
  cases l with
  | nil => rfl
  | cons c t =>
    rw [List.dropWhile_cons]
    simp [h c (List.mem_cons_self _ _)]

/-- Stripping a whitespace-free word is the identity. -/
theorem stripWs_eq_self (w : List Char)
    (h : ∀ c ∈ w, isSpaceChar c = false) : stripWs w = w := by
  have h2 : ∀ c ∈ w.reverse, isSpaceChar c = false :=
    fun c hc => h c (List.mem_reverse.mp hc)
  rw [stripWs, dropWhile_eq_self_of w h, dropWhile_eq_self_of w.reverse h2,
    List.reverse_reverse]

/-- On an unmatched whitespace-free word, the word loop produces the bracket
marker. -/
theorem transWord_unmatched (w : List Char)
    (hfree : ∀ c ∈ w, isSpaceChar c = false) (hm : findMatch w = none) :
    transWord w = '[' :: (w ++ [']']) := by
  rw [transWord, stripWs_eq_self w hfree, hm]

/-- A pattern containing a space and no `]` is never a prefix of
`w' ++ ']' :: v` when `w'` is whitespace-free. -/
theorem notPrefix_space : ∀ (w' p v : List Char), ' ' ∈ p → ']' ∉ p →
    (∀ c ∈ w', isSpaceChar c = false) →
    p.isPrefixOf (w' ++ ']' :: v) = false := by
  intro w'
  induction w' with
  | nil =>
    intro p v hsp hrb _
    cases p with
    | nil => simp at hsp
    | cons c q =>
      by_cases hc : c = ']'
      · exact absurd (hc ▸ List.mem_cons_self c q) hrb
      · simp [List.isPrefixOf, hc]
  | cons a w'' ih =>
    intro p v hsp hrb hw
    cases p with
    | nil => simp at hsp
    | cons c q =>
      simp only [List.cons_append, List.isPrefixOf, Bool.and_eq_false_iff]
      by_cases hca : c = a
      · rcases List.mem_cons.mp hsp with hsp' | hsp'
        · exfalso
          have := hw a (List.mem_cons_self _ _)
          rw [hca] at hsp'
          rw [← hsp'] at this
          simp [isSpaceChar] at this
        · have hrb' : ']' ∉ q := fun h => hrb (List.mem_cons_of_mem _ h)
          have hw'' : ∀ x ∈ w'', isSpaceChar x = false :=
            fun x hx => hw x (List.mem_cons_of_mem _ hx)
          exact Or.inr (ih q v hsp' hrb' hw'')
      · exact Or.inl (by simp [hca])

/-- A non-empty pattern without `[` is never a prefix of `'[' :: z`. -/
theorem notPrefix_openBracket (p z : List Char) (hlb : '[' ∉ p)
    (hne : p ≠ []) : p.isPrefixOf ('[' :: z) = false := by
  cases p with
  | nil => exact absurd rfl hne
  | cons c q =>
    by_cases hc : c = '['
    · exact absurd (hc ▸ List.mem_cons_self c q) hlb
    · simp [List.isPrefixOf, hc]

/-- A pattern without `[` that is a prefix of `u ++ '[' :: z` must end inside
`u`. -/
theorem prefix_length_le : ∀ (u p z : List Char), '[' ∉ p →
    p.isPrefixOf (u ++ '[' :: z) = true → p.length ≤ u.length := by
  intro u
  induction u with
  | nil =>
    intro p z hlb hp
    cases p with
    | nil => simp
    | cons c q =>
      simp only [List.nil_append, List.isPrefixOf, Bool.and_eq_true,
        beq_iff_eq] at hp
      exact absurd (hp.1 ▸ List.mem_cons_self c q) hlb
  | cons a u' ih =>
    intro p z hlb hp
    cases p with
    | nil => simp
    | cons c q =>
      simp only [List.cons_append, List.isPrefixOf, Bool.and_eq_true,
        beq_iff_eq] at hp
      have hq : '[' ∉ q := fun h => hlb (List.mem_cons_of_mem _ h)
      have := ih q z hq hp.2
      simp only [List.length_cons]
      omega

/-- With zero fuel the replacement worker is the identity. -/
theorem replaceAllF_zero (p r : List Char) : ∀ l, replaceAllF p r 0 l = l := by
  intro l
  cases l <;> simp [replaceAllF]

/-- The replacement worker walks through `w' ++ ']' :: v` (with `w'`
whitespace-free) character by character whenever the pattern contains a space
and no `]`: no replacement can start inside that region. -/
theorem replaceAllF_seg (p r : List Char) (hsp : ' ' ∈ p) (hrb : ']' ∉ p) :
    ∀ (w' : List Char) (fuel : Nat) (v : List Char),
      (∀ c ∈ w', isSpaceChar c = false) →
      replaceAllF p r fuel (w' ++ ']' :: v) =
        w' ++ ']' :: replaceAllF p r (fuel - (w'.length + 1)) v := by
  intro w'
  induction w' with
  | nil =>
    intro fuel v _
    cases fuel with
    | zero => simp [replaceAllF, replaceAllF_zero]
    | succ f =>
      have hpre := notPrefix_space [] p v hsp hrb (by simp)
      simp only [List.nil_append] at hpre ⊢
      simp [replaceAllF, hpre]
  | cons a w'' ih =>
    intro fuel v hw
    cases fuel with
    | zero => simp [replaceAllF_zero]
    | succ f =>
      have hpre := notPrefix_space (a :: w'') p v hsp hrb hw
      simp only [List.cons_append] at hpre ⊢
      rw [replaceAllF]
      simp only [hpre, Bool.false_eq_true, false_and, if_neg, not_false_iff]
      rw [ih f v (fun c hc => hw c (List.mem_cons_of_mem _ hc))]
      have harith : f + 1 - ((a :: w'').length + 1) = f - (w''.length + 1) := by
        simp only [List.length_cons]
        omega
      rw [harith]

/-- Core preservation lemma: replacing a pattern that contains a space and no
bracket cannot destroy a bracketed whitespace-free segment. -/
theorem replaceAllF_occurs (p r : List Char) (hsp : ' ' ∈ p) (hlb : '[' ∉ p)
    (hrb : ']' ∉ p) (w : List Char) (hw : ∀ c ∈ w, isSpaceChar c = false) :
    ∀ (fuel : Nat) (u v : List Char),
      Occurs ('[' :: (w ++ [']']))
        (replaceAllF p r fuel (u ++ '[' :: (w ++ ']' :: v))) := by
  have hne : p ≠ [] := List.ne_nil_of_mem hsp
  intro fuel
  induction fuel with
  | zero =>
    intro u v
    rw [replaceAllF_zero]
    exact ⟨u, v, by simp⟩
  | succ f ih =>
    intro u v
    cases u with
    | nil =>
      have hpre := notPrefix_openBracket p (w ++ ']' :: v) hlb hne
      simp only [List.nil_append]
      rw [replaceAllF]
      simp only [hpre, Bool.false_eq_true, false_and, if_neg, not_false_iff]
      rw [replaceAllF_seg p r hsp hrb w f v hw]
      exact ⟨[], replaceAllF p r (f - (w.length + 1)) v, by simp⟩
    | cons a u' =>
      simp only [List.cons_append]
      rw [replaceAllF]
      by_cases hpre : p.isPrefixOf (a :: (u' ++ '[' :: (w ++ ']' :: v))) = true
      · have hlen : p.length ≤ (a :: u').length := by
          apply prefix_length_le (a :: u') p (w ++ ']' :: v) hlb
          simpa using hpre
        simp only [hpre, hne, and_true, ne_eq, not_false_iff, if_pos]
        have hdrop : (u' ++ '[' :: (w ++ ']' :: v)).drop (p.length - 1) =
            (u'.drop (p.length - 1)) ++ '[' :: (w ++ ']' :: v) := by
          apply List.drop_append_of_le_length
          simp only [List.length_cons] at hlen
          omega
        rw [hdrop]
        exact occurs_append_left _ r _ (ih (u'.drop (p.length - 1)) v)
      · simp only [Bool.not_eq_true] at hpre
        simp only [hpre, Bool.false_eq_true, false_and, if_neg, not_false_iff]
        obtain ⟨x, y, hxy⟩ := ih u' v
        exact ⟨a :: x, y, by rw [hxy]; simp⟩

/-- `str.replace` with a pattern containing a space and no bracket preserves
every bracketed whitespace-free segment. -/
theorem occurs_replaceAll (p r w : List Char) (hsp : ' ' ∈ p) (hlb : '[' ∉ p)
    (hrb : ']' ∉ p) (hfree : ∀ c ∈ w, isSpaceChar c = false) (t : List Char)
    (h : Occurs ('[' :: (w ++ [']'])) t) :
    Occurs ('[' :: (w ++ [']'])) (replaceAll p r t) := by
  obtain ⟨u, v, ht⟩ := h
  rw [replaceAll, ht]
  have hshape : u ++ ('[' :: (w ++ [']'])) ++ v = u ++ '[' :: (w ++ ']' :: v) := by
    simp
  rw [hshape]
  exact replaceAllF_occurs p r hsp hlb hrb w hfree _ u v

/-- Dropping leading whitespace preserves a segment whose first character is
not whitespace. -/
theorem occurs_dropWhile_head (c : Char) (z : List Char)
    (hc : isSpaceChar c = false) :
    ∀ (u v : List Char),
      Occurs (c :: z) ((u ++ (c :: z) ++ v).dropWhile isSpaceChar) := by
  intro u
  induction u with
  | nil =>
    intro v
    simp only [List.nil_append, List.cons_append]
    rw [List.dropWhile_cons]
    simp only [hc, Bool.false_eq_true, if_neg, not_false_iff]
    exact ⟨[], v, by simp⟩
  | cons a u' ih =>
    intro v
    simp only [List.cons_append]
    rw [List.dropWhile_cons]
    by_cases ha : isSpaceChar a
    · simpa [ha] using ih v
    · simp only [ha, Bool.false_eq_true, if_neg, not_false_iff]
      exact ⟨a :: u', v, by simp⟩

/-- Wrapper for `occurs_dropWhile_head` on an occurrence hypothesis. -/
theorem occurs_dropWhile (c : Char) (z t : List Char)
    (hc : isSpaceChar c = false) (h : Occurs (c :: z) t) :
    Occurs (c :: z) (t.dropWhile isSpaceChar) := by
  obtain ⟨u, v, ht⟩ := h
  rw [ht]
  exact occurs_dropWhile_head c z hc u v

/-- `str.strip` preserves every bracketed segment: both of its ends are
non-whitespace bracket characters. -/
theorem occurs_stripWs (w t : List Char)
    (h : Occurs ('[' :: (w ++ [']'])) t) :
    Occurs ('[' :: (w ++ [']'])) (stripWs t) := by
  have h1 := occurs_dropWhile '[' (w ++ [']']) t (by decide) h
  have h2 := occurs_reverse _ _ h1
  have hrev : ('[' :: (w ++ [']'])).reverse = ']' :: (w.reverse ++ ['[']) := by
    simp
  rw [hrev] at h2
  have h3 := occurs_dropWhile ']' (w.reverse ++ ['[']) _ (by decide) h2
  have h4 := occurs_reverse _ _ h3
  have hrev2 : (']' :: (w.reverse ++ ['['])).reverse = '[' :: (w ++ [']']) := by
    simp
  rw [hrev2] at h4
  exact h4

/-- First-letter capitalization preserves a segment whose head is left fixed
by `Char.toUpper`. -/
theorem occurs_capFirst (c : Char) (z t : List Char) (hc : c.toUpper = c)
    (h : Occurs (c :: z) t) : Occurs (c :: z) (capFirst t) := by
  obtain ⟨u, v, ht⟩ := h
  cases u with
  | nil =>
    rw [ht]
    simp only [List.nil_append, List.cons_append, capFirst]
    rw [hc]
    exact ⟨[], v, by simp⟩
  | cons a u' =>
    rw [ht]
    simp only [List.cons_append, capFirst]
    exact ⟨a.toUpper :: u', v, by simp⟩

/-- Claim C7: every word of the input that matches no entry of the bilingual
phrase table comes out of the fallback translation wrapped in bracket markers
— the substring `[w]` appears verbatim in the result of
`_enhanced_translate`, surviving the double-space cleanup, the strip, the
grammar substitutions and the capitalization. -/
theorem c7_unknown_word_bracketed (s : String) (w : List Char)
    (hw : w ∈ splitWs s.data) (hm : findMatch w = none) :
    Occurs ('[' :: (w ++ [']'])) (enhancedTranslate s).data := by
  have hfree : ∀ c ∈ w, isSpaceChar c = false := splitWsF_mem _ _ w hw
  have hpart : ('[' :: (w ++ [']'])) ∈ (splitWs s.data).map transWord := by
    have hmem := List.mem_map_of_mem transWord hw
    rwa [transWord_unmatched w hfree hm] at hmem
  have h1 := occurs_joinSep [' '] _ _ hpart
  have h2 := occurs_replaceAll "  ".data " ".data w (by decide) (by decide)
    (by decide) hfree _ h1
  have h3 := occurs_stripWs w _ h2
  have h4 := occurs_replaceAll "I am learning both Tamil and Sinhala".data
    "I\x27m learning both Tamil and Sinhala".data w (by decide) (by decide)
    (by decide) hfree _ h3
  have h5 := occurs_replaceAll "I am".data "I\x27m".data w (by decide)
    (by decide) (by decide) hfree _ h4
  have h6 := occurs_replaceAll "need to write".data "need to write".data w
    (by decide) (by decide) (by decide) hfree _ h5
  have h7 := occurs_capFirst '[' (w ++ [']']) _ (by decide) h6
  have hcore : Occurs ('[' :: (w ++ [']'])) (enhancedTranslateCore s.data) := by
    rw [enhancedTranslateCore, applyBasicGrammarL]
    exact h7
  have hne := occurs_ne_nil '[' (w ++ [']']) _ hcore
  have hdata : (enhancedTranslate s).data = enhancedTranslateL s.data := by
    unfold enhancedTranslate
    exact string_mk_data _
  rw [hdata, enhancedTranslateL, hne]
  simpa using hcore

/-- Witness for claim C7: the Latin word "hello" matches no table entry, and
the fallback translation of "hello world" contains "[hello]". -/
theorem c7_unknown_word_bracketed_witness :
    Occurs ('[' :: ("hello".data ++ [']'])) (enhancedTranslate "hello world").data :=
  c7_unknown_word_bracketed "hello world" "hello".data (by decide) (by decide)

end TeamsBot
